import Mathlib

/-!
# Verification of the io_scene_xrm binary model codecs

Shallow embedding of the binary reader/writer helpers (`src/readers.py`,
`src/writers.py`), the SRM and TRM model decoders (`src/srm_parser.py`,
`src/trm_parser.py`), the vector/normal/UV conversion helpers
(`src/bpy_util_funcs.py`) and the material-index resolution of
`src/model_importer.py`.

Modelling conventions:
* a byte buffer is a `List Nat`, each entry one byte (0..255);
* Python `struct` format strings are modelled by the `Fmt` type together
  with `Fmt.calcsize`, mirroring the width table shared by reader and
  writer; all code paths in the repository construct readers and writers
  with the default little-endian flag, so only little-endian packing and
  unpacking is modelled;
* 16- and 32-bit floating point values are carried as their raw bit patterns
  (the claims below never interpret float payloads numerically);
* Python exact `int` arithmetic is `Int`, and Python float arithmetic on
  UV coordinates is modelled exactly over `ℚ`;
* a Python method that can raise (e.g. `struct.unpack_from` on a short
  buffer) returns an `Option`; returning `none` together with the
  unchanged state models the exception propagating out of the method
  before any state mutation that textually follows the raising call.
-/

/-- Scalar format characters of the shared `struct` width table:
`B b H h I i Q q e f` in `readers.py` / `writers.py`. -/
inductive Fmt where
  | u8 | i8 | u16 | i16 | u32 | i32 | u64 | i64 | f16 | f32
  deriving DecidableEq, Repr

/-- `struct.calcsize` for a single scalar of the given format. -/
def Fmt.calcsize : Fmt → Nat
  | .u8 => 1 | .i8 => 1
  | .u16 => 2 | .i16 => 2
  | .u32 => 4 | .i32 => 4
  | .u64 => 8 | .i64 => 8
  | .f16 => 2 | .f32 => 4

/-- Signed format characters (`b h i q`). -/
def Fmt.isSigned : Fmt → Bool
  | .i8 | .i16 | .i32 | .i64 => true
  | _ => false

/-- Little-endian value of a byte list: first byte is least significant. -/
def leDecode : List Nat → Nat
  | [] => 0
  | b :: bs => b + 256 * leDecode bs

/-- Little-endian byte list (width `w`) of a natural number, each byte
reduced mod 256. -/
def leBytes : Nat → Nat → List Nat
  | 0, _ => []
  | w + 1, v => v % 256 :: leBytes w (v / 256)

/-- Reinterpret an unsigned `bits`-bit value as two's-complement signed. -/
def toSigned (bits : Nat) (u : Nat) : Int :=
  if u < 2 ^ (bits - 1) then (u : Int) else (u : Int) - 2 ^ bits

/-- Decode one scalar of format `f` from `data` at byte offset `off`
(little-endian, as `struct.unpack_from` with the default `<` prefix).
Unsigned and float formats yield the raw (bit-pattern) value. -/
def decodeScalar (f : Fmt) (data : List Nat) (off : Nat) : Int :=
  let u := leDecode ((data.drop off).take f.calcsize)
  if f.isSigned then toSigned (8 * f.calcsize) u else (u : Int)

/--
The `Reader` of `src/readers.py`: an immutable byte buffer and a cursor.
The Python object also stores `self.length = len(buf)` at construction;
since `self.data` is never reassigned, `length` is recovered as
`data.length` below.
-/
structure Reader where
  data : List Nat
  offset : Nat
  deriving DecidableEq, Repr

namespace Reader

/-- `Reader(buf)`: offset starts at 0. -/
def ofData (buf : List Nat) : Reader := ⟨buf, 0⟩

/-- `self.length`, set from `len(buf)` at construction. -/
def length (r : Reader) : Nat := r.data.length

/-- `Reader.tell`. -/
def tell (r : Reader) : Nat := r.offset

/-- `Reader.skip`: `self.offset += skip_by`. -/
def skip (r : Reader) (skip_by : Nat) : Reader := { r with offset := r.offset + skip_by }

/-- `Reader.seek`: `self.offset = position`. -/
def seek (r : Reader) (position : Nat) : Reader := { r with offset := position }

/--
`Reader.read(fmt)` for a format string of `count` repetitions of scalar
`f` (e.g. `"3H"` is `read .u16 3`): `struct.unpack_from` succeeds exactly
when at least `count * calcsize f` bytes remain past `offset`
(equivalently `offset + size ≤ length` over naturals), returning the
decoded tuple, after which `self.offset += struct.calcsize(fmt)` runs.
On a short buffer `unpack_from` raises `struct.error` before the offset
update: modelled as `(none, r)` with the state unchanged.
-/
def read (r : Reader) (f : Fmt) (count : Nat) : Option (List Int) × Reader :=
  let size := count * f.calcsize
  if r.offset + size ≤ r.length then
    (some ((List.range count).map fun i => decodeScalar f r.data (r.offset + i * f.calcsize)),
     { r with offset := r.offset + size })
  else
    (none, r)

/-- `Reader.read` repackaged as an `Option` of the value and next state,
for sequencing parser steps (the exception short-circuits the parse).
`readOpt_eq_read` below checks it agrees with `read`. -/
def readOpt (r : Reader) (f : Fmt) (count : Nat) : Option (List Int × Reader) :=
  let size := count * f.calcsize
  if r.offset + size ≤ r.length then
    some ((List.range count).map fun i => decodeScalar f r.data (r.offset + i * f.calcsize),
      { r with offset := r.offset + size })
  else
    none

/-- `Reader.read_bytes_at`: `memoryview(self.data)[self.offset+offset :
self.offset+offset+length]` — a Python slice, which silently clamps at
the end of the buffer. -/
def read_bytes_at (r : Reader) (off : Nat) (len : Nat) : List Nat :=
  (r.data.drop (r.offset + off)).take len

/-- `Reader.read_bytes`: slice at the cursor, then `self.offset += length`
unconditionally (even when the slice was clamped short). -/
def read_bytes (r : Reader) (len : Nat) : List Nat × Reader :=
  (r.read_bytes_at 0 len, { r with offset := r.offset + len })

/-- `Reader.read_string`: the bytes of `read_bytes` (the final `.decode()`
to `str` is not modelled; the byte content is returned). -/
def read_string (r : Reader) (len : Nat) : List Nat × Reader :=
  r.read_bytes len

/-- `Reader.ubyte`: `self.read("B")[0]`. -/
def ubyte (r : Reader) : Option Int × Reader :=
  let (v, r') := r.read .u8 1
  (v.map fun l => l.headD 0, r')

end Reader

-- Basic sanity checks of the embedding on concrete data.
example : (Reader.ofData [1, 2, 3]).read .u16 1 = (some [513], ⟨[1, 2, 3], 2⟩) := by decide
example : (Reader.ofData [0xff]).read .i8 1 = (some [-1], ⟨[0xff], 1⟩) := by decide
example : (Reader.ofData [1]).read .u16 1 = (none, ⟨[1], 0⟩) := by decide
example : (Reader.ofData [65]).read_bytes 3 = ([65], ⟨[65], 3⟩) := by decide
example : (Reader.ofData [9, 8]).ubyte = (some 9, ⟨[9, 8], 1⟩) := by decide

/-- `struct.pack` of one scalar (little-endian): the bytes of the value,
or `struct.error` (`none`) when the value is out of range for the format.
Float formats carry bit patterns, so they pack like unsigned fields. -/
def packScalar (f : Fmt) (v : Int) : Option (List Nat) :=
  if f.isSigned then
    if -(2 ^ (8 * f.calcsize - 1)) ≤ v ∧ v < 2 ^ (8 * f.calcsize - 1) then
      some (leBytes f.calcsize (v % 2 ^ (8 * f.calcsize)).toNat)
    else none
  else
    if 0 ≤ v ∧ v < 2 ^ (8 * f.calcsize) then
      some (leBytes f.calcsize v.toNat)
    else none

namespace writers

/--
The `Writer` of `src/writers.py` in its in-memory sink mode:
`Writer(None)` and `Writer(bytearray(...))` both end with `self.file` a
`bytearray`, `self.raw = True`. `self.offset` and `self.length` are the
fields of the same names. (Namespaced under the source module name
because `Writer` itself collides with a Mathlib name.)
-/
structure Writer where
  file : List Nat
  offset : Nat
  length : Nat
  deriving DecidableEq, Repr

namespace Writer

/-- `Writer(None)`: empty bytearray, offset 0, length 0. -/
def empty : Writer := ⟨[], 0, 0⟩

/--
`Writer.write(fmt, value)` for an in-memory sink. The Python body
dispatches on the sink:
* `if isinstance(self.file, bytearray): self.file.extend(packed_val)` —
  this branch fires for EVERY in-memory sink, appending at the end of
  the buffer regardless of `self.offset`;
* `elif self.raw: ...` (append at end, or overwrite at `self.offset`)
  is unreachable for in-memory sinks, because `self.raw` is true exactly
  when `self.file` is a bytearray, which the first branch already took
  (see `write_raw_branch` below for that dead branch);
* `else: self.file.write(packed_val)` targets a stream sink (not an
  in-memory buffer; out of scope here).
Afterwards `self.offset += struct.calcsize(fmt)` and
`self.length = len(self.file)`.
-/
def write (w : Writer) (f : Fmt) (v : Int) : Option (List Nat × Writer) := do
  let packed ← packScalar f v
  let file := w.file ++ packed
  some (packed, { file := file, offset := w.offset + f.calcsize, length := file.length })

/-- The dead `elif self.raw:` branch of `Writer.write`, transcribed for
reference: append when the cursor sits at the end, otherwise overwrite
in place at `self.offset`. In-memory sinks never reach it (the bytearray
branch above shadows it). -/
def write_raw_branch (file : List Nat) (offset : Nat) (packed : List Nat) : List Nat :=
  if offset = file.length then
    file ++ packed
  else
    (List.range packed.length).foldl
      (fun acc i => acc.set (offset + i) (packed.getD i 0)) file

/-- `Writer.tell` for a raw (in-memory) sink: `self.offset`. -/
def tell (w : Writer) : Nat := w.offset

/-- `Writer.seek` for a raw (in-memory) sink: `self.offset = position`. -/
def seek (w : Writer) (position : Nat) : Writer := { w with offset := position }

end Writer

end writers

example : writers.Writer.empty.write .u8 300 = none := by decide
example : (writers.Writer.empty.write .u8 7).map (fun p => p.2.file) = some [7] := by decide

/-!
## Model decoders

Shared pieces of `src/srm_parser.py` and `src/trm_parser.py`, plus the
conversion helpers of `src/bpy_util_funcs.py`.
-/

/-- `reverse_vector` (`src/bpy_util_funcs.py`): `tuple(reversed(vector))`. -/
def reverse_vector (vector : List Int) : List Int := vector.reverse

/-- `convert_vertex_normal` (`src/bpy_util_funcs.py`): each component is
the raw byte minus 127. -/
def convert_vertex_normal (nx ny nz : Int) : Int × Int × Int :=
  (nx - 127, ny - 127, nz - 127)

namespace Reader

/--
The TRM zero-padding scan (`src/trm_parser.py`, run once after the
texture table and once after the face list):
```
while reader.offset < reader.length:
    if reader.ubyte() != 0:
        reader.seek(reader.tell() - 1)  # Rewind one byte
        break
    zero_count += 1
```
Inside the loop `reader.offset < reader.length` guarantees the one-byte
`ubyte()` read succeeds and returns the byte at the current offset while
advancing by one (lemma `ubyte_of_lt` below); the body is transcribed
with that byte inlined so the recursion is visibly decreasing.
Returns the reader after the scan together with `zero_count`.
-/
def zeroScan (r : Reader) (zero_count : Nat) : Reader × Nat :=
  if h : r.offset < r.length then
    if r.data.getD r.offset 0 ≠ 0 then
      ((skip r 1).seek ((skip r 1).tell - 1), zero_count)
    else (skip r 1).zeroScan (zero_count + 1)
  else (r, zero_count)
  termination_by r.length - r.offset
  decreasing_by simp [length, skip] at *; omega

/-- `vec3us`: `self.read("3H")`. -/
def vec3us (r : Reader) : Option (List Int × Reader) := r.readOpt .u16 3

/-- `vec3ub`: `self.read("3B")`. -/
def vec3ub (r : Reader) : Option (List Int × Reader) := r.readOpt .u8 3

/-- `vec3f`: `self.read("3f")` (bit patterns). -/
def vec3f (r : Reader) : Option (List Int × Reader) := r.readOpt .f32 3

/-- `ubyte` as an `Option` step (`self.read("B")[0]`). -/
def ubyteOpt (r : Reader) : Option (Int × Reader) :=
  match r.readOpt .u8 1 with
  | some (l, r') => some (l.headD 0, r')
  | none => none

/-- `float32` as an `Option` step (`self.read("f")[0]`, bit pattern). -/
def float32Opt (r : Reader) : Option (Int × Reader) :=
  match r.readOpt .f32 1 with
  | some (l, r') => some (l.headD 0, r')
  | none => none

end Reader

/--
The face-reading loop shared verbatim by both decoders
(`src/srm_parser.py` line 203, `src/trm_parser.py` line 132):
```
for _ in range(n):
    faces.append(reverse_vector(reader.vec3us()))
```
parameterised by the iteration count `n`.
-/
def parseFaceList (r : Reader) : Nat → Option (List (List Int) × Reader)
  | 0 => some ([], r)
  | n + 1 => do
    let (t, r1) ← r.vec3us
    let (fs, r2) ← parseFaceList r1 n
    some (reverse_vector t :: fs, r2)

/-- The SRM face table: `for _ in range(faceCount // 3)`. -/
def SRM.parseFaces (r : Reader) (faceCount : Nat) : Option (List (List Int) × Reader) :=
  parseFaceList r (faceCount / 3)

/-- The TRM face table: `for _ in range(faceCount // 3)`. -/
def TRM.parseFaces (r : Reader) (faceCount : Nat) : Option (List (List Int) × Reader) :=
  parseFaceList r (faceCount / 3)

/-- One decoded SRM vertex record (the per-iteration yield of the vertex
loop in `src/srm_parser.py`, lines 156-194). Positions are f32 bit
patterns; UV coordinates are exact rationals. -/
structure SRMVertex where
  pos : List Int
  tangent : Int × Int × Int
  constant : Int
  normal : Int × Int × Int
  matIdx : Int
  boneIdx : List Int
  u : ℚ
  v : ℚ
  weights : List Int
  deriving DecidableEq, Repr

/-- One iteration of the SRM vertex loop (`src/srm_parser.py` 156-194):
position `3f`; tangent `3B` through `convert_vertex_normal`; the
"constant" byte; normal `3B` through `convert_vertex_normal`; material
index byte; bone indices `3B`; U byte (`/255.0`); bone weights `3B`;
V byte (`1 - /255.0`); then `reader.skip(4)`. 32 bytes per vertex. -/
def SRM.parseVertex (r : Reader) : Option (SRMVertex × Reader) := do
  let (pos, r1) ← r.vec3f
  let (tb, r2) ← r1.vec3ub
  let tangent := convert_vertex_normal (tb.getD 0 0) (tb.getD 1 0) (tb.getD 2 0)
  let (constant, r3) ← r2.ubyteOpt
  let (nb, r4) ← r3.vec3ub
  let normal := convert_vertex_normal (nb.getD 0 0) (nb.getD 1 0) (nb.getD 2 0)
  let (id, r5) ← r4.ubyteOpt
  let (indices, r6) ← r5.vec3ub
  let (ub, r7) ← r6.ubyteOpt
  let (weights, r8) ← r7.vec3ub
  let (vb, r9) ← r8.ubyteOpt
  let uv : ℚ × ℚ := ((ub : ℚ) / 255, 1 - (vb : ℚ) / 255)
  let r10 := r9.skip 4
  some (⟨pos, tangent, constant, normal, id, indices, uv.1, uv.2, weights⟩, r10)

/-- One decoded TRM vertex record (`src/trm_parser.py`, lines 159-185):
no tangent, no constant, no trailing reserved bytes. -/
structure TRMVertex where
  pos : List Int
  normal : Int × Int × Int
  matIdx : Int
  boneIdx : List Int
  u : ℚ
  v : ℚ
  weights : List Int
  deriving DecidableEq, Repr

/-- One iteration of the TRM vertex loop (`src/trm_parser.py` 159-185):
position `3f`; normal `3B` through `convert_vertex_normal`; material
index byte; bone indices `3B`; U byte; bone weights `3B`; V byte.
24 bytes per vertex. -/
def TRM.parseVertex (r : Reader) : Option (TRMVertex × Reader) := do
  let (pos, r1) ← r.vec3f
  let (nb, r2) ← r1.vec3ub
  let normal := convert_vertex_normal (nb.getD 0 0) (nb.getD 1 0) (nb.getD 2 0)
  let (id, r3) ← r2.ubyteOpt
  let (indices, r4) ← r3.vec3ub
  let (ub, r5) ← r4.ubyteOpt
  let (weights, r6) ← r5.vec3ub
  let (vb, r7) ← r6.ubyteOpt
  let uv : ℚ × ℚ := ((ub : ℚ) / 255, 1 - (vb : ℚ) / 255)
  some (⟨pos, normal, id, indices, uv.1, uv.2, weights⟩, r7)

/--
Material-slot resolution of `build_mesh_from_data`
(`src/model_importer.py`, lines 236-244), for one face whose first
vertex carries material-index byte `b`, against `numMaterials` decoded
materials (one per texture entry):
```
mat_index = model_data["material_index"][first_vertex] - 1
if mat_index < 0 or mat_index >= len(materials):
    print(warning)
    mat_index = 0  # Assign to the first material if invalid
poly.material_index = mat_index
```
Total (never raises); the warning print is a side effect not modelled.
-/
def resolve_material_index (b : Nat) (numMaterials : Nat) : Int :=
  let mat_index : Int := (b : Int) - 1
  if mat_index < 0 ∨ (numMaterials : Int) ≤ mat_index then 0 else mat_index

/-- A counted read loop `for _ in range(n): reader.<scalar>()`, collecting
the scalar values in order. -/
def readScalarLoop (f : Fmt) (r : Reader) : Nat → Option (List Int × Reader)
  | 0 => some ([], r)
  | n + 1 => do
    let (v, r1) ← r.readOpt f 1
    let (vs, r2) ← readScalarLoop f r1 n
    some (v.headD 0 :: vs, r2)

namespace SRMV23

/--
Modelled from the spec: the SRM-V2/V3 codec is code of this repository
that is not under `src/` (`src/srm_parser.py` implements only the V1
grammar, with an unconditional 384-float/128-byte unknown block).
Spec section 4.3: after reading `faceCountA`, `faceCountB`, `unkVal`,
`faceCountC`, "if `faceCountA == 88500`, the unknown-block sizes become
684 floats / 132 bytes instead of the default 384/128"; the block is a
float32 loop followed by a ubyte loop, after which the `vertexCount`
field is read.
-/
def parseUnknownBlock (r : Reader) (faceCountA : Nat) :
    Option ((List Int × List Int) × Reader) := do
  let nFloats := if faceCountA = 88500 then 684 else 384
  let nBytes := if faceCountA = 88500 then 132 else 128
  let (fs, r1) ← readScalarLoop .f32 r nFloats
  let (bs, r2) ← readScalarLoop .u8 r1 nBytes
  some ((fs, bs), r2)

end SRMV23

/-!
## Supporting lemmas
-/

/-- `readOpt` agrees with `read`: it is `some` exactly on the successful
branch of `read`, with the same value and successor state. -/
theorem Reader.readOpt_eq_read (r : Reader) (f : Fmt) (count : Nat) :
    r.readOpt f count =
      match r.read f count with
      | (some v, r') => some (v, r')
      | (none, _) => none := by
  by_cases hc : r.offset + count * f.calcsize ≤ r.length <;>
    simp [Reader.readOpt, Reader.read, hc]

/-- Inversion for a successful `readOpt`: the values are the scalars
decoded at consecutive offsets and the cursor advances by the full
byte width. -/
theorem Reader.readOpt_inv {r : Reader} {f : Fmt} {c : Nat} {v : List Int} {r' : Reader}
    (h : r.readOpt f c = some (v, r')) :
    v = (List.range c).map (fun i => decodeScalar f r.data (r.offset + i * f.calcsize)) ∧
      r' = { r with offset := r.offset + c * f.calcsize } := by
  by_cases hc : r.offset + c * f.calcsize ≤ r.length
  · simp only [Reader.readOpt, hc, if_true, Option.some.injEq, Prod.mk.injEq] at h
    exact ⟨h.1.symm, h.2.symm⟩
  · simp [Reader.readOpt, hc] at h

/-- `readOpt` succeeds when the requested width fits in the buffer. -/
theorem Reader.readOpt_succ (r : Reader) (f : Fmt) (c : Nat)
    (h : r.offset + c * f.calcsize ≤ r.length) :
    r.readOpt f c =
      some ((List.range c).map (fun i => decodeScalar f r.data (r.offset + i * f.calcsize)),
        { r with offset := r.offset + c * f.calcsize }) := by
  unfold Reader.readOpt
  simp [h]

/-- A one-byte unsigned decode at a valid offset is the byte itself. -/
theorem decodeScalar_u8 (data : List Nat) (off : Nat) (h : off < data.length) :
    decodeScalar .u8 data off = (data.getD off 0 : Int) := by
  have hdrop : data.drop off = data[off] :: data.drop (off + 1) :=
    List.drop_eq_getElem_cons h
  have hg : data.getD off 0 = data[off] := List.getD_eq_getElem data 0 h
  simp only [decodeScalar, Fmt.calcsize, Fmt.isSigned, hdrop, hg,
    List.take_succ_cons, List.take_zero, leDecode, Bool.false_eq_true, if_false]
  push_cast
  ring


/-- When at least one byte remains, `ubyte` succeeds, returns the byte at
the cursor and advances the cursor by one. -/
theorem Reader.ubyte_of_lt (r : Reader) (h : r.offset < r.length) :
    r.ubyte = (some ((r.data.getD r.offset 0 : Nat) : Int),
      { r with offset := r.offset + 1 }) := by
  have h1 : r.offset < r.data.length := h
  have hc : r.offset + 1 ≤ r.length := h
  simp [Reader.ubyte, Reader.read, Fmt.calcsize, hc, decodeScalar_u8 _ _ h1,
    List.getD_eq_getElem?_getD, List.range_succ]

/--
The zero-padding scan started at a cursor followed by exactly `k` zero
bytes and then the nonzero byte `b` stops with the cursor advanced by
exactly `k`, having counted `k` padding bytes.
-/
theorem Reader.zeroScan_spec :
    ∀ (k : Nat) (r : Reader) (c b : Nat) (rest : List Nat),
      r.data.drop r.offset = List.replicate k 0 ++ b :: rest → b ≠ 0 →
      r.zeroScan c = ({ r with offset := r.offset + k }, c + k) := by
  intro k
  induction k with
  | zero =>
    intro r c b rest hdrop hb
    simp only [List.replicate, List.nil_append] at hdrop
    have hlt : r.offset < r.data.length := by
      by_contra hge
      rw [List.drop_eq_nil_of_le (by omega)] at hdrop
      exact List.noConfusion hdrop
    have hcons := List.drop_eq_getElem_cons hlt
    rw [hdrop] at hcons
    have hb' : r.data[r.offset] = b := (List.cons.injEq .. ▸ hcons).1.symm
    have hgd : r.data.getD r.offset 0 = b := by
      rw [List.getD_eq_getElem r.data 0 hlt, hb']
    have hlt2 : r.offset < r.length := hlt
    rw [Reader.zeroScan, dif_pos hlt2]
    rw [if_pos (hgd.symm ▸ hb)]
    simp [Reader.seek, Reader.tell, Reader.skip]
  | succ k ih =>
    intro r c b rest hdrop hb
    have hdrop' : r.data.drop r.offset = 0 :: (List.replicate k 0 ++ b :: rest) := by
      simpa [List.replicate_succ] using hdrop
    have hlt : r.offset < r.data.length := by
      by_contra hge
      rw [List.drop_eq_nil_of_le (by omega)] at hdrop'
      exact List.noConfusion hdrop'
    have hcons := List.drop_eq_getElem_cons hlt
    rw [hdrop'] at hcons
    have hb0 : r.data[r.offset] = 0 := (List.cons.injEq .. ▸ hcons).1.symm
    have hgd : r.data.getD r.offset 0 = 0 := by
      rw [List.getD_eq_getElem r.data 0 hlt, hb0]
    have htail : r.data.drop (r.offset + 1) = List.replicate k 0 ++ b :: rest :=
      ((List.cons.injEq .. ▸ hcons).2).symm
    have hrec := ih ⟨r.data, r.offset + 1⟩ (c + 1) b rest htail hb
    have hlt2 : r.offset < r.length := hlt
    rw [Reader.zeroScan, dif_pos hlt2]
    rw [if_neg (by simp only [hgd]; simp)]
    simp only [Reader.skip]
    rw [hrec]
    have h1 : r.offset + 1 + k = r.offset + (k + 1) := by omega
    have h2 : c + 1 + k = c + (k + 1) := by omega
    rw [h1, h2]

/--
Inversion for the shared face loop: a successful parse of `n` triples
yields exactly `n` stored faces and advances the cursor by `6 * n` bytes
(three unsigned 16-bit indices per face), leaving the buffer unchanged.
-/
theorem parseFaceList_inv :
    ∀ (n : Nat) (r : Reader) (fs : List (List Int)) (r' : Reader),
      parseFaceList r n = some (fs, r') →
      fs.length = n ∧ r'.data = r.data ∧ r'.offset = r.offset + 6 * n := by
  intro n
  induction n with
  | zero =>
    intro r fs r' h
    simp only [parseFaceList, Option.some.injEq, Prod.mk.injEq] at h
    obtain ⟨h1, h2⟩ := h
    subst h1; subst h2
    simp
  | succ n ih =>
    intro r fs r' h
    rw [parseFaceList] at h
    cases hv : r.vec3us with
    | none => simp [hv] at h
    | some p =>
      obtain ⟨t, r1⟩ := p
      simp only [hv, Option.bind_eq_bind, Option.some_bind] at h
      cases hrec : parseFaceList r1 n with
      | none => simp [hrec] at h
      | some q =>
        obtain ⟨fs', r2⟩ := q
        rw [hrec] at h
        simp only [Option.some_bind, Option.some.injEq, Prod.mk.injEq] at h
        obtain ⟨hfs, hr'⟩ := h
        subst hfs; subst hr'
        obtain ⟨hlen, hdata, hoff⟩ := ih r1 fs' r2 hrec
        obtain ⟨_, hr1⟩ := Reader.readOpt_inv hv
        subst hr1
        simp only [Fmt.calcsize] at hoff
        refine ⟨by simp [hlen], by simpa using hdata, ?_⟩
        simp only [hoff]
        omega

/-- `vec3f` on a buffer with at least 12 bytes left: three f32 bit
patterns at consecutive 4-byte offsets. -/
theorem Reader.vec3f_succ (r : Reader) (h : r.offset + 12 ≤ r.length) :
    r.vec3f = some ([decodeScalar .f32 r.data r.offset,
      decodeScalar .f32 r.data (r.offset + 4), decodeScalar .f32 r.data (r.offset + 8)],
      { r with offset := r.offset + 12 }) := by
  have hr : List.range 3 = [0, 1, 2] := rfl
  simp [Reader.vec3f, Reader.readOpt, Fmt.calcsize, h, hr]

/-- `vec3ub` on a buffer with at least 3 bytes left: the three raw bytes
at consecutive offsets. -/
theorem Reader.vec3ub_succ (r : Reader) (h : r.offset + 3 ≤ r.length) :
    r.vec3ub = some ([((r.data.getD r.offset 0 : Nat) : Int),
      ((r.data.getD (r.offset + 1) 0 : Nat) : Int), ((r.data.getD (r.offset + 2) 0 : Nat) : Int)],
      { r with offset := r.offset + 3 }) := by
  have hr : List.range 3 = [0, 1, 2] := rfl
  have h0 : r.offset < r.data.length := by
    have := h; simp only [Reader.length] at this; omega
  have h1 : r.offset + 1 < r.data.length := by
    have := h; simp only [Reader.length] at this; omega
  have h2 : r.offset + 2 < r.data.length := by
    have := h; simp only [Reader.length] at this; omega
  simp [Reader.vec3ub, Reader.readOpt, Fmt.calcsize, h, hr,
    decodeScalar_u8 _ _ h0, decodeScalar_u8 _ _ h1, decodeScalar_u8 _ _ h2,
    List.getD_eq_getElem?_getD]

/-- `ubyteOpt` on a buffer with at least one byte left: the raw byte at
the cursor. -/
theorem Reader.ubyteOpt_succ (r : Reader) (h : r.offset + 1 ≤ r.length) :
    r.ubyteOpt = some (((r.data.getD r.offset 0 : Nat) : Int),
      { r with offset := r.offset + 1 }) := by
  have h0 : r.offset < r.data.length := by
    have := h; simp only [Reader.length] at this; omega
  simp [Reader.ubyteOpt, Reader.readOpt, Fmt.calcsize, h,
    decodeScalar_u8 _ _ h0, List.getD_eq_getElem?_getD, List.range_succ]

/--
Characterization of one SRM vertex record when at least 32 bytes remain:
every field is decoded from its fixed offset inside the record, and the
cursor lands exactly 32 bytes further (28 bytes of fields plus the
4 reserved bytes skipped).
-/
theorem srmParseVertex_eq (r : Reader) (h : r.offset + 32 ≤ r.length) :
    SRM.parseVertex r = some (⟨
      [decodeScalar .f32 r.data r.offset, decodeScalar .f32 r.data (r.offset + 4),
        decodeScalar .f32 r.data (r.offset + 8)],
      (((r.data.getD (r.offset + 12) 0 : Nat) : Int) - 127,
        ((r.data.getD (r.offset + 13) 0 : Nat) : Int) - 127,
        ((r.data.getD (r.offset + 14) 0 : Nat) : Int) - 127),
      ((r.data.getD (r.offset + 15) 0 : Nat) : Int),
      (((r.data.getD (r.offset + 16) 0 : Nat) : Int) - 127,
        ((r.data.getD (r.offset + 17) 0 : Nat) : Int) - 127,
        ((r.data.getD (r.offset + 18) 0 : Nat) : Int) - 127),
      ((r.data.getD (r.offset + 19) 0 : Nat) : Int),
      [((r.data.getD (r.offset + 20) 0 : Nat) : Int),
        ((r.data.getD (r.offset + 21) 0 : Nat) : Int),
        ((r.data.getD (r.offset + 22) 0 : Nat) : Int)],
      ((r.data.getD (r.offset + 23) 0 : Nat) : ℚ) / 255,
      1 - ((r.data.getD (r.offset + 27) 0 : Nat) : ℚ) / 255,
      [((r.data.getD (r.offset + 24) 0 : Nat) : Int),
        ((r.data.getD (r.offset + 25) 0 : Nat) : Int),
        ((r.data.getD (r.offset + 26) 0 : Nat) : Int)]⟩,
      { r with offset := r.offset + 32 }) := by
  have hl : r.offset + 32 ≤ r.data.length := h
  rw [SRM.parseVertex]
  rw [Reader.vec3f_succ r (by omega)]
  simp only [Option.bind_eq_bind, Option.some_bind]
  rw [Reader.vec3ub_succ ⟨r.data, r.offset + 12⟩
    (show r.offset + 12 + 3 ≤ r.data.length by omega)]
  simp only [Option.bind_eq_bind, Option.some_bind]
  rw [Reader.ubyteOpt_succ ⟨r.data, r.offset + 12 + 3⟩
    (show r.offset + 12 + 3 + 1 ≤ r.data.length by omega)]
  simp only [Option.bind_eq_bind, Option.some_bind]
  rw [Reader.vec3ub_succ ⟨r.data, r.offset + 12 + 3 + 1⟩
    (show r.offset + 12 + 3 + 1 + 3 ≤ r.data.length by omega)]
  simp only [Option.bind_eq_bind, Option.some_bind]
  rw [Reader.ubyteOpt_succ ⟨r.data, r.offset + 12 + 3 + 1 + 3⟩
    (show r.offset + 12 + 3 + 1 + 3 + 1 ≤ r.data.length by omega)]
  simp only [Option.bind_eq_bind, Option.some_bind]
  rw [Reader.vec3ub_succ ⟨r.data, r.offset + 12 + 3 + 1 + 3 + 1⟩
    (show r.offset + 12 + 3 + 1 + 3 + 1 + 3 ≤ r.data.length by omega)]
  simp only [Option.bind_eq_bind, Option.some_bind]
  rw [Reader.ubyteOpt_succ ⟨r.data, r.offset + 12 + 3 + 1 + 3 + 1 + 3⟩
    (show r.offset + 12 + 3 + 1 + 3 + 1 + 3 + 1 ≤ r.data.length by omega)]
  simp only [Option.bind_eq_bind, Option.some_bind]
  rw [Reader.vec3ub_succ ⟨r.data, r.offset + 12 + 3 + 1 + 3 + 1 + 3 + 1⟩
    (show r.offset + 12 + 3 + 1 + 3 + 1 + 3 + 1 + 3 ≤ r.data.length by omega)]
  simp only [Option.bind_eq_bind, Option.some_bind]
  rw [Reader.ubyteOpt_succ ⟨r.data, r.offset + 12 + 3 + 1 + 3 + 1 + 3 + 1 + 3⟩
    (show r.offset + 12 + 3 + 1 + 3 + 1 + 3 + 1 + 3 + 1 ≤ r.data.length by omega)]
  simp only [Option.bind_eq_bind, Option.some_bind]
  simp only [Reader.skip, convert_vertex_normal, List.getD_eq_getElem?_getD]
  norm_num

/--
Characterization of one TRM vertex record when at least 24 bytes remain:
every field is decoded from its fixed offset inside the record, and the
cursor lands exactly 24 bytes further.
-/
theorem trmParseVertex_eq (r : Reader) (h : r.offset + 24 ≤ r.length) :
    TRM.parseVertex r = some (⟨
      [decodeScalar .f32 r.data r.offset, decodeScalar .f32 r.data (r.offset + 4),
        decodeScalar .f32 r.data (r.offset + 8)],
      (((r.data.getD (r.offset + 12) 0 : Nat) : Int) - 127,
        ((r.data.getD (r.offset + 13) 0 : Nat) : Int) - 127,
        ((r.data.getD (r.offset + 14) 0 : Nat) : Int) - 127),
      ((r.data.getD (r.offset + 15) 0 : Nat) : Int),
      [((r.data.getD (r.offset + 16) 0 : Nat) : Int),
        ((r.data.getD (r.offset + 17) 0 : Nat) : Int),
        ((r.data.getD (r.offset + 18) 0 : Nat) : Int)],
      ((r.data.getD (r.offset + 19) 0 : Nat) : ℚ) / 255,
      1 - ((r.data.getD (r.offset + 23) 0 : Nat) : ℚ) / 255,
      [((r.data.getD (r.offset + 20) 0 : Nat) : Int),
        ((r.data.getD (r.offset + 21) 0 : Nat) : Int),
        ((r.data.getD (r.offset + 22) 0 : Nat) : Int)]⟩,
      { r with offset := r.offset + 24 }) := by
  have hl : r.offset + 24 ≤ r.data.length := h
  rw [TRM.parseVertex]
  rw [Reader.vec3f_succ r (by omega)]
  simp only [Option.bind_eq_bind, Option.some_bind]
  rw [Reader.vec3ub_succ ⟨r.data, r.offset + 12⟩
    (show r.offset + 12 + 3 ≤ r.data.length by omega)]
  simp only [Option.bind_eq_bind, Option.some_bind]
  rw [Reader.ubyteOpt_succ ⟨r.data, r.offset + 12 + 3⟩
    (show r.offset + 12 + 3 + 1 ≤ r.data.length by omega)]
  simp only [Option.bind_eq_bind, Option.some_bind]
  rw [Reader.vec3ub_succ ⟨r.data, r.offset + 12 + 3 + 1⟩
    (show r.offset + 12 + 3 + 1 + 3 ≤ r.data.length by omega)]
  simp only [Option.bind_eq_bind, Option.some_bind]
  rw [Reader.ubyteOpt_succ ⟨r.data, r.offset + 12 + 3 + 1 + 3⟩
    (show r.offset + 12 + 3 + 1 + 3 + 1 ≤ r.data.length by omega)]
  simp only [Option.bind_eq_bind, Option.some_bind]
  rw [Reader.vec3ub_succ ⟨r.data, r.offset + 12 + 3 + 1 + 3 + 1⟩
    (show r.offset + 12 + 3 + 1 + 3 + 1 + 3 ≤ r.data.length by omega)]
  simp only [Option.bind_eq_bind, Option.some_bind]
  rw [Reader.ubyteOpt_succ ⟨r.data, r.offset + 12 + 3 + 1 + 3 + 1 + 3⟩
    (show r.offset + 12 + 3 + 1 + 3 + 1 + 3 + 1 ≤ r.data.length by omega)]
  simp only [Option.bind_eq_bind, Option.some_bind]
  simp only [convert_vertex_normal, List.getD_eq_getElem?_getD]
  norm_num

/--
A counted scalar read loop on a buffer with enough remaining bytes
succeeds, yields one value per iteration and advances the cursor by
exactly `n * calcsize` bytes.
-/
theorem readScalarLoop_succ :
    ∀ (n : Nat) (f : Fmt) (r : Reader), r.offset + n * f.calcsize ≤ r.length →
      ∃ vs : List Int, vs.length = n ∧
        readScalarLoop f r n = some (vs, ⟨r.data, r.offset + n * f.calcsize⟩) := by
  intro n
  induction n with
  | zero =>
    intro f r _
    refine ⟨[], rfl, ?_⟩
    simp [readScalarLoop]
  | succ n ih =>
    intro f r h
    rw [Nat.succ_mul] at h
    have h1 : r.offset + 1 * f.calcsize ≤ r.length := by omega
    obtain ⟨vs, hlen, hvs⟩ := ih f ⟨r.data, r.offset + 1 * f.calcsize⟩
      (show r.offset + 1 * f.calcsize + n * f.calcsize ≤ r.data.length by
        have hl : r.offset + (n * f.calcsize + f.calcsize) ≤ r.data.length := h
        omega)
    refine ⟨decodeScalar f r.data r.offset :: vs, by simp [hlen], ?_⟩
    rw [readScalarLoop]
    rw [Reader.readOpt_succ r f 1 h1]
    simp only [Option.bind_eq_bind, Option.some_bind]
    rw [hvs]
    simp only [Option.bind_eq_bind, Option.some_bind]
    have harith : r.offset + 1 * f.calcsize + n * f.calcsize = r.offset + (n + 1) * f.calcsize := by
      rw [Nat.succ_mul]; ring
    rw [harith]
    have hr : List.range 1 = [0] := rfl
    simp [hr]

/-!
## Claim theorems
-/

/--
Claim C1 (code bug): the claimed write/read round-trip law fails on the
in-memory sink after a seek. In `Writer.write` the
`isinstance(self.file, bytearray)` branch always appends at the end of
the buffer, shadowing the dead `elif self.raw:` branch that would write
at the repositioned offset. Concretely: write u8 1, write u8 2, seek(0)
(so the write offset is O = 0), write u8 3; the buffer becomes
[1, 2, 3] and reading u8 at offset 0 returns 1, not the 3 just written.
-/
theorem c1_roundtrip_fails_after_seek :
    (do
      let (_, w1) ← writers.Writer.empty.write .u8 1
      let (_, w2) ← w1.write .u8 2
      let w3 := w2.seek 0
      let (_, w4) ← w3.write .u8 3
      some (w3.offset, w4.file)) = some (0, [1, 2, 3]) ∧
    decodeScalar .u8 [1, 2, 3] 0 = 1 ∧ (1 : Int) ≠ 3 := by decide

/--
Claim C2 counterexample: a fixed-string read crossing the end of the
buffer does NOT fail — on the one-byte buffer [65], `read_string(3)`
silently returns the single byte (a shortened result) and still advances
the offset by the full 3 requested bytes.
-/
theorem c2_read_string_truncates_silently :
    ((Reader.ofData [65]).read_string 3).1 = [65] ∧
    ((Reader.ofData [65]).read_string 3).1.length = 1 ∧
    ¬((3 : Nat) ≤ 1) ∧
    ((Reader.ofData [65]).read_string 3).2.offset = 3 := by decide

/--
Claim C2 (amended): scalar and vector reads (`Reader.read`, via
`struct.unpack_from`) whose byte width would cross the end of the buffer
fail with a decode error; but fixed-string and raw-byte reads
(`read_string`/`read_bytes`, via a Python slice) do not fail: they
silently return a result shortened to the bytes remaining and still
advance the offset by the full requested length.
-/
theorem c2_truncated_read_behavior :
    (∀ (r : Reader) (f : Fmt) (n : Nat), r.length < r.offset + n * f.calcsize →
      (r.read f n).1 = none) ∧
    (∀ (r : Reader) (n : Nat), r.length < r.offset + n →
      (r.read_bytes n).1.length = r.length - r.offset ∧
        (r.read_bytes n).2.offset = r.offset + n) := by
  constructor
  · intro r f n h
    have hc : ¬(r.offset + n * f.calcsize ≤ r.length) := by omega
    simp [Reader.read, hc]
  · intro r n h
    refine ⟨?_, rfl⟩
    simp only [Reader.read_bytes, Reader.read_bytes_at, Nat.add_zero, List.length_take,
      List.length_drop, Reader.length]
    have := h
    simp only [Reader.length] at this
    omega

/-- Witness for C2's amended theorem at concrete inputs: a 2-byte scalar
read on a 1-byte buffer fails, and a 3-byte raw read on the same buffer
returns 1 byte while advancing the offset by 3. -/
theorem c2_truncated_read_behavior_witness :
    ((Reader.ofData [65]).read .u16 1).1 = none ∧
    ((Reader.ofData [65]).read_bytes 3).1.length = (Reader.ofData [65]).length - 0 ∧
    ((Reader.ofData [65]).read_bytes 3).2.offset = 0 + 3 :=
  ⟨c2_truncated_read_behavior.1 (Reader.ofData [65]) .u16 1 (by decide),
   (c2_truncated_read_behavior.2 (Reader.ofData [65]) 3 (by decide)).1,
   (c2_truncated_read_behavior.2 (Reader.ofData [65]) 3 (by decide)).2⟩

/--
Claim C3: the TRM zero-padding scan, started at a cursor followed by
exactly `k` zero bytes and then a nonzero byte `b`, consumes exactly `k`
bytes (counting `k` padding bytes) and leaves the cursor on the nonzero
byte, so the next `ubyte` read returns exactly that byte.
-/
theorem c3_zero_padding_scan (r : Reader) (k b : Nat) (rest : List Nat)
    (hdrop : r.data.drop r.offset = List.replicate k 0 ++ b :: rest) (hb : b ≠ 0) :
    r.zeroScan 0 = ({ r with offset := r.offset + k }, k) ∧
    ({ r with offset := r.offset + k } : Reader).ubyte =
      (some ((b : Nat) : Int), { r with offset := r.offset + k + 1 }) := by
  constructor
  · simpa using Reader.zeroScan_spec k r 0 b rest hdrop hb
  · have hdk : r.data.drop (r.offset + k) = b :: rest := by
      have h1 := congrArg (List.drop k) hdrop
      rw [List.drop_drop] at h1
      have haux : List.drop k (List.replicate k (0 : Nat) ++ b :: rest) = b :: rest := by
        have := List.drop_left (List.replicate k (0 : Nat)) (b :: rest)
        rwa [List.length_replicate] at this
      rw [h1, haux]
    have hlt : r.offset + k < r.data.length := by
      by_contra hge
      rw [List.drop_eq_nil_of_le (by omega)] at hdk
      exact List.noConfusion hdk
    have hgd : r.data.getD (r.offset + k) 0 = b := by
      have hcons := List.drop_eq_getElem_cons hlt
      rw [hdk] at hcons
      have hbb : r.data[r.offset + k] = b := (List.cons.injEq .. ▸ hcons).1.symm
      rw [List.getD_eq_getElem r.data 0 hlt, hbb]
    have := Reader.ubyte_of_lt ⟨r.data, r.offset + k⟩ hlt
    rw [hgd] at this
    exact this

/-- Witness for C3 on a concrete buffer: 5 zero bytes then the byte 7. -/
theorem c3_zero_padding_scan_witness :
    (Reader.ofData [0, 0, 0, 0, 0, 7]).zeroScan 0 =
      (⟨[0, 0, 0, 0, 0, 7], 5⟩, 5) ∧
    (⟨[0, 0, 0, 0, 0, 7], 5⟩ : Reader).ubyte =
      (some 7, ⟨[0, 0, 0, 0, 0, 7], 6⟩) :=
  c3_zero_padding_scan (Reader.ofData [0, 0, 0, 0, 0, 7]) 5 7 [] (by decide) (by decide)

/--
Claim C4: both decoders store exactly `faceCount / 3` (floor) face
triples and, after face parsing, the cursor sits exactly
`6 * (faceCount / 3)` bytes past the face-table start (2 bytes per
index), so remainder indices of a `faceCount` not divisible by 3 are
neither stored nor consumed.
-/
theorem c4_face_count_flooring :
    (∀ (r : Reader) (faceCount : Nat) (fs : List (List Int)) (r' : Reader),
      SRM.parseFaces r faceCount = some (fs, r') →
      fs.length = faceCount / 3 ∧ r'.offset = r.offset + 6 * (faceCount / 3)) ∧
    (∀ (r : Reader) (faceCount : Nat) (fs : List (List Int)) (r' : Reader),
      TRM.parseFaces r faceCount = some (fs, r') →
      fs.length = faceCount / 3 ∧ r'.offset = r.offset + 6 * (faceCount / 3)) := by
  constructor
  · intro r faceCount fs r' h
    obtain ⟨h1, _, h3⟩ := parseFaceList_inv (faceCount / 3) r fs r' h
    exact ⟨h1, h3⟩
  · intro r faceCount fs r' h
    obtain ⟨h1, _, h3⟩ := parseFaceList_inv (faceCount / 3) r fs r' h
    exact ⟨h1, h3⟩

/-- Witness for C4 at `faceCount = 10` on a 20-byte zero buffer: exactly
3 face triples are stored and the cursor stops at byte 18, leaving the
10th index (and the 2 spare buffer bytes) unconsumed. -/
theorem c4_face_count_flooring_witness :
    (([[0, 0, 0], [0, 0, 0], [0, 0, 0]] : List (List Int)).length = 10 / 3 ∧
      (⟨List.replicate 20 0, 18⟩ : Reader).offset =
        (Reader.ofData (List.replicate 20 0)).offset + 6 * (10 / 3)) ∧
    (([[0, 0, 0], [0, 0, 0]] : List (List Int)).length = 7 / 3 ∧
      (⟨List.replicate 14 0, 12⟩ : Reader).offset =
        (Reader.ofData (List.replicate 14 0)).offset + 6 * (7 / 3)) :=
  ⟨c4_face_count_flooring.1 (Reader.ofData (List.replicate 20 0)) 10
      [[0, 0, 0], [0, 0, 0], [0, 0, 0]] ⟨List.replicate 20 0, 18⟩ (by decide),
   c4_face_count_flooring.2 (Reader.ofData (List.replicate 14 0)) 7
      [[0, 0, 0], [0, 0, 0]] ⟨List.replicate 14 0, 12⟩ (by decide)⟩

/--
Claim C5: each face triple stored by the shared face loop is the
reversal of the triple of three unsigned 16-bit indices read from the
stream (the loop body appends `reverse_vector(reader.vec3us())`).
-/
theorem c5_face_winding_reversed (r : Reader) (n : Nat) (t : List Int) (r1 : Reader)
    (fs : List (List Int)) (r2 : Reader)
    (h1 : r.vec3us = some (t, r1)) (h2 : parseFaceList r1 n = some (fs, r2)) :
    parseFaceList r (n + 1) = some (t.reverse :: fs, r2) := by
  rw [parseFaceList, h1]
  simp only [Option.bind_eq_bind, Option.some_bind]
  rw [h2]
  simp [reverse_vector]

/-- Witness for C5: the triple (10, 20, 30), read from its little-endian
stream bytes, is stored as (30, 20, 10). -/
theorem c5_face_winding_reversed_witness :
    parseFaceList (Reader.ofData [10, 0, 20, 0, 30, 0]) 1 =
      some ([[30, 20, 10]], ⟨[10, 0, 20, 0, 30, 0], 6⟩) :=
  c5_face_winding_reversed (Reader.ofData [10, 0, 20, 0, 30, 0]) 0 [10, 20, 30]
    ⟨[10, 0, 20, 0, 30, 0], 6⟩ [] ⟨[10, 0, 20, 0, 30, 0], 6⟩ (by decide) (by decide)

/--
Claim C6: every normal component stored by either decoder (and every SRM
tangent component) is the raw stream byte minus 127 — not rescaled —
so byte 127 decodes to 0, byte 0 to -127, and byte 255 to 128.
-/
theorem c6_normal_decode :
    (∀ r : Reader, r.offset + 32 ≤ r.length →
      (SRM.parseVertex r).map (fun p => (p.1.normal, p.1.tangent)) =
        some (
          (((r.data.getD (r.offset + 16) 0 : Nat) : Int) - 127,
            ((r.data.getD (r.offset + 17) 0 : Nat) : Int) - 127,
            ((r.data.getD (r.offset + 18) 0 : Nat) : Int) - 127),
          (((r.data.getD (r.offset + 12) 0 : Nat) : Int) - 127,
            ((r.data.getD (r.offset + 13) 0 : Nat) : Int) - 127,
            ((r.data.getD (r.offset + 14) 0 : Nat) : Int) - 127))) ∧
    (∀ r : Reader, r.offset + 24 ≤ r.length →
      (TRM.parseVertex r).map (fun p => p.1.normal) =
        some (((r.data.getD (r.offset + 12) 0 : Nat) : Int) - 127,
          ((r.data.getD (r.offset + 13) 0 : Nat) : Int) - 127,
          ((r.data.getD (r.offset + 14) 0 : Nat) : Int) - 127)) ∧
    convert_vertex_normal 127 0 255 = (0, -127, 128) := by
  refine ⟨?_, ?_, by decide⟩
  · intro r h
    rw [srmParseVertex_eq r h]
    rfl
  · intro r h
    rw [trmParseVertex_eq r h]
    rfl

/-- Witness for C6 on concrete all-zero vertex records: every stored
normal / tangent component decodes to 0 - 127 = -127. -/
theorem c6_normal_decode_witness :
    (SRM.parseVertex (Reader.ofData (List.replicate 32 0))).map
        (fun p => (p.1.normal, p.1.tangent)) =
      some (((-127 : Int), -127, -127), ((-127 : Int), -127, -127)) ∧
    (TRM.parseVertex (Reader.ofData (List.replicate 24 0))).map (fun p => p.1.normal) =
      some ((-127 : Int), -127, -127) :=
  ⟨c6_normal_decode.1 (Reader.ofData (List.replicate 32 0)) (by decide),
   c6_normal_decode.2.1 (Reader.ofData (List.replicate 24 0)) (by decide)⟩

/--
Claim C7: the UV pair stored per vertex by either decoder is
`(u / 255, 1 - v / 255)` for the raw U and V bytes, so U byte 0 gives
U = 0, U byte 255 gives U = 1, V byte 0 gives V = 1 and V byte 255
gives V = 0.
-/
theorem c7_uv_decode :
    (∀ r : Reader, r.offset + 32 ≤ r.length →
      (SRM.parseVertex r).map (fun p => (p.1.u, p.1.v)) =
        some (((r.data.getD (r.offset + 23) 0 : Nat) : ℚ) / 255,
          1 - ((r.data.getD (r.offset + 27) 0 : Nat) : ℚ) / 255)) ∧
    (∀ r : Reader, r.offset + 24 ≤ r.length →
      (TRM.parseVertex r).map (fun p => (p.1.u, p.1.v)) =
        some (((r.data.getD (r.offset + 19) 0 : Nat) : ℚ) / 255,
          1 - ((r.data.getD (r.offset + 23) 0 : Nat) : ℚ) / 255)) ∧
    ((0 : ℚ) / 255 = 0 ∧ (255 : ℚ) / 255 = 1 ∧
      1 - (0 : ℚ) / 255 = 1 ∧ 1 - (255 : ℚ) / 255 = 0) := by
  refine ⟨?_, ?_, by norm_num⟩
  · intro r h
    rw [srmParseVertex_eq r h]
    simp
  · intro r h
    rw [trmParseVertex_eq r h]
    simp

/-- Witness for C7 on concrete vertex records: all-255 bytes give
U = 255/255 = 1 and V = 1 - 255/255 = 0; all-zero bytes give U = 0 and
V = 1. -/
theorem c7_uv_decode_witness :
    (SRM.parseVertex (Reader.ofData (List.replicate 32 255))).map
        (fun p => (p.1.u, p.1.v)) = some ((1 : ℚ), (0 : ℚ)) ∧
    (TRM.parseVertex (Reader.ofData (List.replicate 24 0))).map
        (fun p => (p.1.u, p.1.v)) = some ((0 : ℚ), (1 : ℚ)) := by
  constructor
  · have h := c7_uv_decode.1 (Reader.ofData (List.replicate 32 255)) (by decide)
    rw [h]
    norm_num [Reader.ofData, List.getD_eq_getElem?_getD, List.getElem?_replicate]
  · have h := c7_uv_decode.2.1 (Reader.ofData (List.replicate 24 0)) (by decide)
    rw [h]
    norm_num [Reader.ofData, List.getD_eq_getElem?_getD, List.getElem?_replicate]

/--
Claim C8: material assignment never raises — a material-index byte of 0,
or one whose 1-based-to-0-based bias lands outside the material list,
resolves to slot 0 (with a logged warning), while a valid index
`i ∈ 1..numMaterials` resolves to slot `i - 1`.
-/
theorem c8_material_index_clamp :
    (∀ numMaterials : Nat, resolve_material_index 0 numMaterials = 0) ∧
    (∀ b numMaterials : Nat, (numMaterials : Int) ≤ (b : Int) - 1 →
      resolve_material_index b numMaterials = 0) ∧
    (∀ i numMaterials : Nat, 1 ≤ i → i ≤ numMaterials →
      resolve_material_index i numMaterials = (i : Int) - 1) := by
  refine ⟨?_, ?_, ?_⟩
  · intro n
    simp [resolve_material_index]
  · intro b n hbn
    have : (n : Int) ≤ (b : Int) - 1 := hbn
    simp only [resolve_material_index, if_pos (Or.inr this)]
  · intro i n h1 hn
    have hc : ¬(((i : Int) - 1 < 0) ∨ ((n : Int) ≤ (i : Int) - 1)) := by
      push_neg
      constructor <;> [omega; omega]
    simp only [resolve_material_index, if_neg hc]

/-- Witness for C8: byte 0 and the out-of-range byte 5 (against 3
materials) clamp to slot 0; the valid byte 2 resolves to slot 1. -/
theorem c8_material_index_clamp_witness :
    resolve_material_index 0 2 = 0 ∧
    resolve_material_index 5 3 = 0 ∧
    resolve_material_index 2 3 = (2 : Int) - 1 :=
  ⟨c8_material_index_clamp.1 2,
   c8_material_index_clamp.2.1 5 3 (by decide),
   c8_material_index_clamp.2.2 2 3 (by decide) (by decide)⟩

/--
Claim C9 (modelled from the spec; the SRM-V2/V3 codec is not under
`src/`): the `faceCountA == 88500` branch parses 684 floats plus 132
bytes (2868 bytes), any other `faceCountA` parses 384 floats plus 128
bytes (1664 bytes), and the branches differ by exactly
`(684 - 384) * 4 + (132 - 128) = 1204` consumed bytes before the
subsequent `vertexCount` field.
-/
theorem c9_srm23_unknown_block :
    (∀ r : Reader, r.offset + 2868 ≤ r.length →
      ∃ fs bs : List Int, fs.length = 684 ∧ bs.length = 132 ∧
        SRMV23.parseUnknownBlock r 88500 = some ((fs, bs), ⟨r.data, r.offset + 2868⟩)) ∧
    (∀ (r : Reader) (faceCountA : Nat), faceCountA ≠ 88500 →
      r.offset + 1664 ≤ r.length →
      ∃ fs bs : List Int, fs.length = 384 ∧ bs.length = 128 ∧
        SRMV23.parseUnknownBlock r faceCountA = some ((fs, bs), ⟨r.data, r.offset + 1664⟩)) ∧
    2868 = 1664 + 1204 := by
  refine ⟨?_, ?_, rfl⟩
  · intro r h
    have hl : r.offset + 2868 ≤ r.data.length := h
    obtain ⟨fs, hfl, hfs⟩ := readScalarLoop_succ 684 .f32 r
      (by simp only [Fmt.calcsize, Reader.length]; omega)
    obtain ⟨bs, hbl, hbs⟩ := readScalarLoop_succ 132 .u8
      ⟨r.data, r.offset + 684 * Fmt.calcsize .f32⟩
      (by simp only [Fmt.calcsize, Reader.length]; omega)
    refine ⟨fs, bs, hfl, hbl, ?_⟩
    rw [SRMV23.parseUnknownBlock]
    simp only [reduceIte]
    rw [hfs]
    simp only [Option.bind_eq_bind, Option.some_bind]
    rw [hbs]
    simp only [Option.bind_eq_bind, Option.some_bind, Fmt.calcsize]
  · intro r faceCountA ha h
    have hl : r.offset + 1664 ≤ r.data.length := h
    obtain ⟨fs, hfl, hfs⟩ := readScalarLoop_succ 384 .f32 r
      (by simp only [Fmt.calcsize, Reader.length]; omega)
    obtain ⟨bs, hbl, hbs⟩ := readScalarLoop_succ 128 .u8
      ⟨r.data, r.offset + 384 * Fmt.calcsize .f32⟩
      (by simp only [Fmt.calcsize, Reader.length]; omega)
    refine ⟨fs, bs, hfl, hbl, ?_⟩
    rw [SRMV23.parseUnknownBlock]
    simp only [if_neg ha]
    rw [hfs]
    simp only [Option.bind_eq_bind, Option.some_bind]
    rw [hbs]
    simp only [Option.bind_eq_bind, Option.some_bind, Fmt.calcsize]

/-- Witness for C9 on concrete zero buffers sized exactly to each
branch, with `faceCountA = 0` for the default branch. -/
theorem c9_srm23_unknown_block_witness :
    (∃ fs bs : List Int, fs.length = 684 ∧ bs.length = 132 ∧
      SRMV23.parseUnknownBlock (Reader.ofData (List.replicate 2868 0)) 88500 =
        some ((fs, bs), ⟨List.replicate 2868 0, 0 + 2868⟩)) ∧
    (∃ fs bs : List Int, fs.length = 384 ∧ bs.length = 128 ∧
      SRMV23.parseUnknownBlock (Reader.ofData (List.replicate 1664 0)) 0 =
        some ((fs, bs), ⟨List.replicate 1664 0, 0 + 1664⟩)) :=
  ⟨c9_srm23_unknown_block.1 (Reader.ofData (List.replicate 2868 0))
      (by simp only [Reader.ofData, Reader.length, List.length_replicate]; omega),
   c9_srm23_unknown_block.2.1 (Reader.ofData (List.replicate 1664 0)) 0 (by decide)
      (by simp only [Reader.ofData, Reader.length, List.length_replicate]; omega)⟩

/--
Claim C10: `Reader.read` is atomic on failure — the offset is advanced
(by exactly the requested byte width) only after a successful unpack; a
failing read leaves the whole reader state, in particular the offset,
unchanged.
-/
theorem c10_read_atomic_on_failure (r : Reader) (f : Fmt) (count : Nat) :
    ((r.read f count).1.isSome →
      (r.read f count).2.offset = r.offset + count * f.calcsize) ∧
    ((r.read f count).1 = none → (r.read f count).2 = r) := by
  by_cases hc : r.offset + count * f.calcsize ≤ r.length <;>
    simp [Reader.read, hc]

/-- Witness for C10: a successful 2-byte read advances the offset by 2;
the same read on a 1-byte buffer fails and leaves the reader unchanged. -/
theorem c10_read_atomic_on_failure_witness :
    ((Reader.ofData [1, 2]).read .u16 1).2.offset = 0 + 1 * Fmt.calcsize .u16 ∧
    ((Reader.ofData [1]).read .u16 1).2 = Reader.ofData [1] :=
  ⟨(c10_read_atomic_on_failure (Reader.ofData [1, 2]) .u16 1).1 (by decide),
   (c10_read_atomic_on_failure (Reader.ofData [1]) .u16 1).2 (by decide)⟩
